import Mathlib

/-!
# Verification of the racing-line optimization engine

Shallow embedding of the Python racing-line optimizer
(`Backend/simulation/optimizer.py`, `Backend/simulation/algorithms/basic_model.py`,
`Backend/simulation/models/base_model.py`,
`Backend/simulation/curvilinear_coordinates.py`) over the real numbers.

Modelling conventions used throughout:

* Machine floats are modelled as real numbers, so every value is finite and the
  source's `np.isfinite` sanitation steps (`np.where(np.isfinite(x), x, c)`)
  are the identity and are noted in comments where they occur.
* `scipy.ndimage.gaussian_filter1d(xs, sigma)` is modelled as `correlate1d w r xs`:
  discrete correlation with an explicit weight list `w` of radius `r` using
  scipy's default `reflect` boundary mode.  The actual Gaussian weights for a
  given sigma are a nonnegative kernel normalized to total mass 1, so theorems
  quantify over every such kernel; the identity kernel `[1]` also covers the
  source's bare `except: pass` fallbacks around these calls.
* `scipy.interpolate.splprep/splev` (periodic spline fitting) is external
  numerical code; its sampled output enters the embedding as an explicit
  `splineOut` parameter, while the fitting precondition `m > k` (`k = 3`,
  cubic) that makes it raise on degenerate inputs is modelled directly.
* Python exceptions are modelled with `Except String`; the per-vehicle
  `try/except` of `optimize_racing_line` is modelled by an explicit oracle
  `raises : ℕ → Bool` saying which vehicle's per-vehicle block raises.
-/

open Real

namespace RaceLine

/-- A 2-D point `(x, y)`, as one row of the `np.ndarray`s used throughout. -/
abbrev Point := ℝ × ℝ

/-- Embedding of `np.linalg.norm(p - q)` for 2-D points. -/
noncomputable def dist2 (p q : Point) : ℝ :=
  Real.sqrt ((p.1 - q.1) ^ 2 + (p.2 - q.2) ^ 2)

theorem dist2_nonneg (p q : Point) : 0 ≤ dist2 p q := Real.sqrt_nonneg _

theorem dist2_self (p : Point) : dist2 p p = 0 := by
  simp [dist2]

/-- Embedding of `np.allclose(p, q, atol=1e-3)` on 2-D points: componentwise
`|p - q| <= atol + rtol * |q|` with numpy's default `rtol = 1e-5`. -/
def isCloseP (p q : Point) : Prop :=
  |p.1 - q.1| ≤ 1e-3 + 1e-5 * |q.1| ∧ |p.2 - q.2| ≤ 1e-3 + 1e-5 * |q.2|

theorem isCloseP_refl (p : Point) : isCloseP p p := by
  constructor <;> · simp; positivity

noncomputable instance : Decidable (isCloseP p q) := by
  unfold isCloseP; infer_instance

/-- Index folding of scipy's `reflect` boundary mode `(d c b a | a b c d | d c b a)`:
the reflected sequence has period `2n`, with the second half reversed. -/
def reflectIdx (n : ℕ) (j : ℤ) : ℕ :=
  if (Int.emod j (2 * n)).toNat < n then (Int.emod j (2 * n)).toNat
  else 2 * n - 1 - (Int.emod j (2 * n)).toNat

theorem reflectIdx_lt (n : ℕ) (hn : 0 < n) (j : ℤ) : reflectIdx n j < n := by
  unfold reflectIdx
  have h2n : (0 : ℤ) < 2 * n := by positivity
  have hlt : Int.emod j (2 * n) < 2 * n := Int.emod_lt_of_pos j h2n
  have hge : (0 : ℤ) ≤ Int.emod j (2 * n) := Int.emod_nonneg j (by omega)
  have : (Int.emod j (2 * n)).toNat < 2 * n := by omega
  split <;> omega

/-- Embedding of `scipy.ndimage.correlate1d` with weights `w` and origin-centred radius `r`,
boundary mode `reflect`; `gaussian_filter1d(xs, sigma)` is this with the
normalized Gaussian weight list for that sigma. -/
noncomputable def correlate1d (w : List ℝ) (r : ℤ) (xs : List ℝ) : List ℝ :=
  (List.range xs.length).map fun (i : ℕ) =>
    ∑ k ∈ Finset.range w.length,
      w.getD k 0 * xs.getD (reflectIdx xs.length ((i : ℤ) + (k : ℤ) - r)) 0

/-- A kernel is valid when its weights are nonnegative. -/
def KernelNonneg (w : List ℝ) : Prop := ∀ k, 0 ≤ w.getD k 0

/-- A kernel has unit mass when its weights sum to 1 (scipy normalizes the
truncated Gaussian kernel to total mass 1). -/
def KernelUnit (w : List ℝ) : Prop := ∑ k ∈ Finset.range w.length, w.getD k 0 = 1

theorem correlate1d_length (w : List ℝ) (r : ℤ) (xs : List ℝ) :
    (correlate1d w r xs).length = xs.length := by
  simp [correlate1d]

/-- Correlation with a nonnegative unit-mass kernel never exceeds an upper
bound satisfied by every input value: each output is a convex combination of
input values. -/
theorem correlate1d_le (w : List ℝ) (r : ℤ) (xs : List ℝ) (M : ℝ)
    (hw : KernelNonneg w) (hu : KernelUnit w)
    (hxs : ∀ x ∈ xs, x ≤ M) :
    ∀ y ∈ correlate1d w r xs, y ≤ M := by
  intro y hy
  unfold correlate1d at hy
  rcases List.mem_map.1 hy with ⟨i, hi, rfl⟩
  have hn : 0 < xs.length := by
    rcases List.mem_range.1 hi with h
    omega
  calc ∑ k ∈ Finset.range w.length,
        w.getD k 0 * xs.getD (reflectIdx xs.length ((i : ℤ) + (k : ℤ) - r)) 0
      ≤ ∑ k ∈ Finset.range w.length, w.getD k 0 * M := by
        refine Finset.sum_le_sum fun k _ => ?_
        have hidx := reflectIdx_lt xs.length hn ((i : ℤ) + (k : ℤ) - r)
        have hmem : xs.getD (reflectIdx xs.length ((i : ℤ) + (k : ℤ) - r)) 0 ∈ xs := by
          rw [List.getD_eq_getElem xs 0 hidx]
          exact List.getElem_mem hidx
        exact mul_le_mul_of_nonneg_left (hxs _ hmem) (hw k)
    _ = M := by
        rw [← Finset.sum_mul, hu, one_mul]

/-- The identity kernel `[1]` is a valid unit-mass kernel (it is also the
behaviour of the source's `except: pass` branches around the smoothing calls). -/
theorem kernel_one_valid : KernelNonneg [1] ∧ KernelUnit [1] := by
  constructor
  · intro k; cases k <;> simp [List.getD]
  · simp [KernelUnit]

/-! ## Vehicle and track data (`Backend/schemas/track.py`) -/

/-- The `Car` record (pydantic model, `schemas/track.py` lines 9-28).  The pydantic field
validators (`gt=0` etc.) live at the transport boundary and are not enforced
here; claims that rely on them state them as hypotheses. -/
structure Car where
  id : String
  mass : ℝ
  length : ℝ
  width : ℝ
  max_steering_angle : ℝ
  max_acceleration : ℝ
  drag_coefficient : ℝ
  lift_coefficient : ℝ
  frontal_area : Option ℝ

/-- Embedding of `Car.effective_frontal_area` (`schemas/track.py` lines 23-28). -/
noncomputable def Car.effective_frontal_area (c : Car) : ℝ :=
  match c.frontal_area with
  | some a => a
  | none => c.length * c.width * 0.7

/-- The `Track` record (`schemas/track.py` lines 35-42). -/
structure Track where
  track_points : List Point
  width : ℝ
  friction : ℝ
  cars : List Car

/-- The `car_params` dict built by `optimize_racing_line` from the first car
(`optimizer.py` lines 284-293): exactly these seven fields, nothing else
(in particular not `id` and not `frontal_area`). -/
structure CarParams where
  mass : ℝ
  length : ℝ
  width : ℝ
  max_steering_angle : ℝ
  max_acceleration : ℝ
  drag_coefficient : ℝ
  lift_coefficient : ℝ

/-- Extraction of `car_params` from a `Car` (`optimizer.py` lines 285-293). -/
noncomputable def carParamsOf (c : Car) : CarParams :=
  { mass := c.mass, length := c.length, width := c.width,
    max_steering_angle := c.max_steering_angle,
    max_acceleration := c.max_acceleration,
    drag_coefficient := c.drag_coefficient,
    lift_coefficient := c.lift_coefficient }

/-! ## Speed profile (`optimizer.py` lines 98-240) -/

/-- Embedding of `calculate_max_entry_speed` (`optimizer.py` lines 98-193).
Over ℝ the `np.isfinite` guards (lines 104, 123, 193) are always true and are
dropped; `Cd` is read but only used for logging and is omitted.  The three-pass
iterative downforce refinement (lines 145-166) is `speedStep` applied three
times to the initial guess 30.0. -/
noncomputable def calculate_max_entry_speed (curvature friction : ℝ) (car : Car) : ℝ :=
  if |curvature| < 1e-10 then
    -- straight line: limited by the car's rough top-speed estimate
    min 80.0 (Real.sqrt (car.max_acceleration * 100))
  else
    let g : ℝ := 9.81
    let rho : ℝ := 1.225
    let Cl := car.lift_coefficient
    let A := car.effective_frontal_area
    let max_steering_rad := car.max_steering_angle * π / 180  -- np.deg2rad
    let wheelbase := car.length * 0.6
    let min_turn_radius :=
      if 0 < max_steering_rad then wheelbase / Real.tan max_steering_rad else 1000.0
    let current_turn_radius := if 1e-10 < |curvature| then 1.0 / |curvature| else 1000.0
    if current_turn_radius < min_turn_radius then
      -- corner too tight for the steering: limited speed
      min 15.0 (Real.sqrt (friction * g * current_turn_radius))
    else
      let speedStep : ℝ → ℝ := fun v =>
        let downforce := 0.5 * rho * v ^ 2 * Cl * A
        let total_normal_force := car.mass * g + downforce
        let max_lateral_force := friction * total_normal_force
        if 1e-10 < |curvature| then
          let v_max_squared := max_lateral_force / (car.mass * |curvature|)
          if 0 < v_max_squared then Real.sqrt v_max_squared else 10.0
        else 80.0
      let v_estimate := speedStep (speedStep (speedStep 30.0))
      let mass_penalty := Real.sqrt (750.0 / car.mass)
      let accel_boost := Real.sqrt (car.max_acceleration / 10.0)
      let physics_speed := v_estimate * mass_penalty * accel_boost
      max 5.0 (min 100.0 (0.85 * physics_speed))

/-- Every raw per-point speed is capped at 100.0: each branch of
`calculate_max_entry_speed` returns `min 80 _`, `min 15 _`, or
`max 5 (min 100 _)`. -/
theorem calculate_max_entry_speed_le_100 (curvature friction : ℝ) (car : Car) :
    calculate_max_entry_speed curvature friction car ≤ 100 := by
  unfold calculate_max_entry_speed
  split
  · exact le_trans (min_le_left _ _) (by norm_num)
  · dsimp only
    split_ifs <;>
      first
        | exact le_trans (min_le_left _ _) (by norm_num)
        | exact max_le (by norm_num) (le_trans (min_le_left _ _) (by norm_num))

/-- Segment lengths of a polyline with the 0.1 floor applied
(`optimizer.py` lines 207-212): `np.linalg.norm(np.diff(line, axis=0), axis=1)`
then `np.maximum(_, 0.1)`. -/
noncomputable def flooredSegmentLengths (line : List Point) : List ℝ :=
  ((line.zip line.tail).map fun pq => dist2 pq.2 pq.1).map fun d => max d 0.1

/-- Embedding of `calculate_speed_profile` (`optimizer.py` lines 195-240), parameterized by
the Gaussian kernel `(w, r)` of the `gaussian_filter1d(speeds, sigma=2.0)` call
(line 220; the `except: pass` branch is the identity kernel `[1]`).
The `np.where(np.isfinite(speeds), speeds, 10.0)` step (line 225) is the
identity over ℝ. -/
noncomputable def calculate_speed_profile (w : List ℝ) (r : ℤ) (racing_line : List Point)
    (curvature : List ℝ) (friction : ℝ) (car : Car) : List ℝ × ℝ :=
  let n := racing_line.length
  let segment_lengths := flooredSegmentLengths racing_line
  let rawSpeeds := (List.range n).map fun (i : ℕ) =>
    calculate_max_entry_speed (curvature.getD i 0) friction car
  let smoothed := correlate1d w r rawSpeeds
  let speeds := smoothed.map fun s => max s 1.0
  let lap_time := ∑ i ∈ Finset.range segment_lengths.length,
    if 0 < speeds.getD i 0 then segment_lengths.getD i 0 / speeds.getD i 0 else 0
  (speeds, lap_time)

theorem reflectIdx_coe_of_lt {n i : ℕ} (h : i < n) : reflectIdx n (i : ℤ) = i := by
  unfold reflectIdx
  have hmod : Int.emod (i : ℤ) (2 * n) = i :=
    Int.emod_eq_of_lt (by positivity) (by omega)
  rw [hmod]
  simp [h]

/-- Correlation with the identity kernel is the identity. -/
theorem correlate1d_id (xs : List ℝ) : correlate1d [1] 0 xs = xs := by
  unfold correlate1d
  refine List.ext_getElem (by simp) fun i hi hi2 => ?_
  simp only [List.getElem_map, List.getElem_range]
  have hi' : i < xs.length := by simpa using hi
  rw [show ([1] : List ℝ).length = 1 from rfl, Finset.sum_range_one]
  have : ((i : ℤ) + ((0 : ℕ) : ℤ) - 0) = (i : ℤ) := by ring
  rw [this, reflectIdx_coe_of_lt hi', List.getD_eq_getElem xs 0 hi']
  simp [List.getD]

/-- C4.  For every racing line, curvature array, friction value and vehicle
(and every valid smoothing kernel, covering the Gaussian kernel of
`gaussian_filter1d(speeds, sigma=2.0)` as well as the identity of the
`except: pass` branch), every element of the speed array returned by
`calculate_speed_profile` lies in the window `[1, 100]`: at least the 1.0
floor applied at `optimizer.py` line 226 and at most the 100.0 cap enforced
by every branch of `calculate_max_entry_speed`.  Over the real-number model
every value is automatically finite, and `1 ≤ s` gives strict positivity. -/
theorem speed_profile_bounds (w : List ℝ) (r : ℤ) (racing_line : List Point)
    (curvature : List ℝ) (friction : ℝ) (car : Car)
    (hw : KernelNonneg w) (hu : KernelUnit w) :
    ∀ s ∈ (calculate_speed_profile w r racing_line curvature friction car).1,
      1 ≤ s ∧ s ≤ 100 := by
  intro s hs
  unfold calculate_speed_profile at hs
  dsimp only at hs
  rcases List.mem_map.1 hs with ⟨t, ht, rfl⟩
  have hraw : ∀ x ∈ (List.range racing_line.length).map fun (i : ℕ) =>
      calculate_max_entry_speed (curvature.getD i 0) friction car, x ≤ 100 := by
    intro x hx
    rcases List.mem_map.1 hx with ⟨i, _, rfl⟩
    exact calculate_max_entry_speed_le_100 _ _ _
  have h100 : t ≤ 100 := correlate1d_le w r _ 100 hw hu hraw t ht
  constructor
  · exact le_trans (by norm_num) (le_max_right t 1.0)
  · exact max_le h100 (by norm_num)

/-- A concrete vehicle used to instantiate hypotheses at specific inputs:
mass 750, length 5, width 2, steering limit 45 deg, max acceleration 64. -/
noncomputable def cexCar : Car :=
  { id := "c1", mass := 750, length := 5, width := 2, max_steering_angle := 45,
    max_acceleration := 64, drag_coefficient := 1, lift_coefficient := 3,
    frontal_area := none }

theorem speed_profile_bounds_witness :
    KernelNonneg [1] ∧ KernelUnit [1] ∧
    ∀ s ∈ (calculate_speed_profile [1] 0 [((0 : ℝ), (0 : ℝ)), ((1 : ℝ), (0 : ℝ))]
        [0, 1] 0.9 cexCar).1, 1 ≤ s ∧ s ≤ 100 :=
  ⟨kernel_one_valid.1, kernel_one_valid.2,
    speed_profile_bounds [1] 0 _ _ 0.9 cexCar kernel_one_valid.1 kernel_one_valid.2⟩

/-! ## C5: lap-time formula -/

/-- Modelled from the spec's words for comparison with the code:
"lap time is computed as `Σ segmentLength / averageSpeed(consecutive points)`",
i.e. each segment's length divided by the average of the speeds at its two
endpoints. -/
noncomputable def lapTimeSpecFormula (line : List Point) (speeds : List ℝ) : ℝ :=
  let seg := (line.zip line.tail).map fun pq => dist2 pq.2 pq.1
  ∑ i ∈ Finset.range seg.length,
    seg.getD i 0 / ((speeds.getD i 0 + speeds.getD (i + 1) 0) / 2)

/-- Concrete straight 3-point line with unit segments. -/
noncomputable def cLine : List Point := [(0, 0), (1, 0), (2, 0)]

/-- Concrete curvature array: straight, curvature 1, straight. -/
noncomputable def cCurv : List ℝ := [0, 1, 0]

/-- Concrete friction chosen so that `friction * 9.81 = 4` exactly. -/
noncomputable def cFriction : ℝ := 400 / 981

theorem cmes_straight_eval : calculate_max_entry_speed 0 cFriction cexCar = 80 := by
  have h1 : Real.sqrt (cexCar.max_acceleration * 100) = 80 := by
    rw [show cexCar.max_acceleration * 100 = (80 : ℝ) ^ 2 by norm_num [cexCar],
      Real.sqrt_sq (by norm_num : (0 : ℝ) ≤ 80)]
  unfold calculate_max_entry_speed
  rw [if_pos (by norm_num : |(0 : ℝ)| < 1e-10), h1]
  norm_num

theorem cmes_corner_eval : calculate_max_entry_speed 1 cFriction cexCar = 2 := by
  have habs : |(1 : ℝ)| = 1 := abs_one
  have htan : Real.tan (cexCar.max_steering_angle * π / 180) = 1 := by
    rw [show cexCar.max_steering_angle * π / 180 = π / 4 by
        simp [cexCar]; ring,
      Real.tan_pi_div_four]
  have hspos : (0 : ℝ) < cexCar.max_steering_angle * π / 180 := by
    simp only [cexCar]
    positivity
  have hsq : Real.sqrt (cFriction * 9.81 * (1.0 / |(1 : ℝ)|)) = 2 := by
    rw [show cFriction * 9.81 * (1.0 / |(1 : ℝ)|) = (2 : ℝ) ^ 2 by
        rw [habs]; norm_num [cFriction],
      Real.sqrt_sq (by norm_num : (0 : ℝ) ≤ 2)]
  unfold calculate_max_entry_speed
  rw [if_neg (by rw [habs]; norm_num)]
  dsimp only
  rw [if_pos (by rw [habs]; norm_num : (1e-10 : ℝ) < |(1 : ℝ)|),
    if_pos hspos, htan]
  rw [if_pos (by rw [habs]; norm_num [cexCar] : 1.0 / |(1 : ℝ)| <
      cexCar.length * 0.6 / 1)]
  rw [hsq]
  norm_num

theorem csp_cex_eval :
    calculate_speed_profile [1] 0 cLine cCurv cFriction cexCar
      = ([80, 2, 80], 41 / 80) := by
  have hmap : (List.range cLine.length).map (fun (i : ℕ) =>
      calculate_max_entry_speed (cCurv.getD i 0) cFriction cexCar)
      = [80, 2, 80] := by
    rw [show cLine.length = 3 from rfl, show List.range 3 = [0, 1, 2] from rfl]
    simp only [List.map_cons, List.map_nil]
    rw [show cCurv.getD 0 0 = 0 from rfl, show cCurv.getD 1 0 = 1 from rfl,
      show cCurv.getD 2 0 = 0 from rfl, cmes_straight_eval, cmes_corner_eval]
  have hseg : flooredSegmentLengths cLine = [1, 1] := by
    have h1 : dist2 ((1 : ℝ), (0 : ℝ)) ((0 : ℝ), (0 : ℝ)) = 1 := by
      simp [dist2]
    have h2 : dist2 ((2 : ℝ), (0 : ℝ)) ((1 : ℝ), (0 : ℝ)) = 1 := by
      rw [show dist2 ((2 : ℝ), (0 : ℝ)) ((1 : ℝ), (0 : ℝ))
          = Real.sqrt (((2 : ℝ) - 1) ^ 2 + ((0 : ℝ) - 0) ^ 2) from rfl]
      norm_num
    unfold flooredSegmentLengths cLine
    simp only [List.tail_cons, List.zip_cons_cons, List.zip_nil_right,
      List.map_cons, List.map_nil]
    rw [h1, h2]
    norm_num
  unfold calculate_speed_profile
  dsimp only
  rw [hmap, correlate1d_id, hseg]
  refine Prod.ext ?_ ?_ <;> dsimp only
  · simp only [List.map_cons, List.map_nil]
    norm_num
  · rw [show ([1, 1] : List ℝ).length = 2 from rfl]
    rw [Finset.sum_range_succ, Finset.sum_range_one]
    simp only [List.map_cons, List.map_nil]
    norm_num

theorem lapTimeSpec_cex_eval : lapTimeSpecFormula cLine [80, 2, 80] = 2 / 41 := by
  have h1 : dist2 ((1 : ℝ), (0 : ℝ)) ((0 : ℝ), (0 : ℝ)) = 1 := by simp [dist2]
  have h2 : dist2 ((2 : ℝ), (0 : ℝ)) ((1 : ℝ), (0 : ℝ)) = 1 := by
    rw [show dist2 ((2 : ℝ), (0 : ℝ)) ((1 : ℝ), (0 : ℝ))
        = Real.sqrt (((2 : ℝ) - 1) ^ 2 + ((0 : ℝ) - 0) ^ 2) from rfl]
    norm_num
  unfold lapTimeSpecFormula cLine
  simp only [List.tail_cons, List.zip_cons_cons, List.zip_nil_right,
    List.map_cons, List.map_nil]
  rw [h1, h2]
  rw [show ([(1 : ℝ), 1] : List ℝ).length = 2 from rfl]
  rw [Finset.sum_range_succ, Finset.sum_range_one]
  norm_num

/-- C5 counterexample.  At the concrete input `cLine`/`cCurv` (identity
smoothing kernel, the `except: pass` branch), the lap time returned by
`calculate_speed_profile` is `1/80 + 1/2 = 41/80`, while the spec formula
`Σ segmentLength / averageSpeed(consecutive points)` over the returned speed
array `[80, 2, 80]` gives `1/41 + 1/41 = 2/41`: the code divides each segment
length by the speed at the segment's first endpoint, not by the average of
the two endpoint speeds. -/
theorem lap_time_average_speed_counterexample :
    (calculate_speed_profile [1] 0 cLine cCurv cFriction cexCar).2 ≠
      lapTimeSpecFormula cLine
        (calculate_speed_profile [1] 0 cLine cCurv cFriction cexCar).1 := by
  rw [csp_cex_eval]
  rw [show ([80, 2, 80], (41 : ℝ) / 80).1 = [(80 : ℝ), 2, 80] from rfl]
  rw [lapTimeSpec_cex_eval]
  norm_num

/-- C5 as amended.  The lap time returned by `calculate_speed_profile` equals
the sum over consecutive point pairs of the segment length (floored at 0.1)
divided by the clamped speed at the FIRST point of the pair — not the average
of the two endpoint speeds.  The `if speeds[i] > 0` guard of the source is
always true because every returned speed is at least the 1.0 floor. -/
theorem lap_time_start_speed_formula (w : List ℝ) (r : ℤ) (line : List Point)
    (curvature : List ℝ) (friction : ℝ) (car : Car) :
    (calculate_speed_profile w r line curvature friction car).2 =
      ∑ i ∈ Finset.range (flooredSegmentLengths line).length,
        (flooredSegmentLengths line).getD i 0 /
          (calculate_speed_profile w r line curvature friction car).1.getD i 0 := by
  unfold calculate_speed_profile
  dsimp only
  refine Finset.sum_congr rfl fun i hi => ?_
  have hi' : i < (flooredSegmentLengths line).length := Finset.mem_range.1 hi
  have hm : (flooredSegmentLengths line).length ≤ line.length := by
    unfold flooredSegmentLengths
    simp only [List.length_map, List.length_zip, List.length_tail]
    omega
  have hlenS : ((correlate1d w r ((List.range line.length).map fun (i : ℕ) =>
      calculate_max_entry_speed (curvature.getD i 0) friction car)).map
      fun s => max s 1.0).length = line.length := by
    rw [List.length_map, correlate1d_length, List.length_map, List.length_range]
  have hilt : i < ((correlate1d w r ((List.range line.length).map fun (i : ℕ) =>
      calculate_max_entry_speed (curvature.getD i 0) friction car)).map
      fun s => max s 1.0).length := by omega
  have hpos : 0 < ((correlate1d w r ((List.range line.length).map fun (i : ℕ) =>
      calculate_max_entry_speed (curvature.getD i 0) friction car)).map
      fun s => max s 1.0).getD i 0 := by
    rw [List.getD_eq_getElem _ 0 hilt, List.getElem_map]
    exact lt_of_lt_of_le (by norm_num) (le_max_right _ 1.0)
  rw [if_pos hpos]

theorem lap_time_start_speed_formula_witness :
    (calculate_speed_profile [1] 0 cLine cCurv cFriction cexCar).2 =
      ∑ i ∈ Finset.range (flooredSegmentLengths cLine).length,
        (flooredSegmentLengths cLine).getD i 0 /
          (calculate_speed_profile [1] 0 cLine cCurv cFriction cexCar).1.getD i 0 :=
  lap_time_start_speed_formula [1] 0 cLine cCurv cFriction cexCar

/-! ## Curvature of a polyline (`optimizer.py` lines 73-96) -/

/-- Embedding of `np.gradient` on a 1-D array: central differences for interior points,
one-sided differences at the boundary. -/
noncomputable def npGradient (xs : List ℝ) : List ℝ :=
  (List.range xs.length).map fun (i : ℕ) =>
    if i = 0 then xs.getD 1 0 - xs.getD 0 0
    else if i = xs.length - 1 then xs.getD i 0 - xs.getD (i - 1) 0
    else (xs.getD (i + 1) 0 - xs.getD (i - 1) 0) / 2

/-- Embedding of `compute_curvature` (`optimizer.py` lines 73-96):
`κ = |x'y'' - y'x''| / (x'² + y'²)^1.5` from `np.gradient` derivatives, with the
small-denominator guard at 1e-10.  The final
`np.where(np.isfinite(curvature), curvature, 0.0)` is the identity over ℝ
(the guard already makes the denominator nonzero).  Note this curvature is
UNSIGNED: the numerator takes an absolute value. -/
noncomputable def compute_curvature (points : List Point) : List ℝ :=
  let dx := npGradient (points.map Prod.fst)
  let dy := npGradient (points.map Prod.snd)
  let ddx := npGradient dx
  let ddy := npGradient dy
  (List.range points.length).map fun (i : ℕ) =>
    let num := |dx.getD i 0 * ddy.getD i 0 - dy.getD i 0 * ddx.getD i 0|
    let den := (dx.getD i 0 * dx.getD i 0 + dy.getD i 0 * dy.getD i 0) ^ (1.5 : ℝ)
    let safe_den := if den < 1e-10 then 1e-10 else den
    num / safe_den

/-! ## Base racing-line model (`models/base_model.py`) -/

/-- Embedding of `BaseRacingLineModel.calculate_track_vectors` (`base_model.py` lines 88-111):
forward differences with the last one duplicated, normalized with the
zero-norm guard (`np.where(norms == 0, 1, norms)`; the `np.isfinite` pass is
the identity over ℝ), and the left-normal `(-dy, dx)`.
`create_separated_racing_lines` (`optimizer.py` lines 392-402) computes the
same direction/perpendicular vectors with the same code. -/
noncomputable def calculate_track_vectors (pts : List Point) : List Point × List Point :=
  let diffs := (pts.zip pts.tail).map fun pq => (pq.2.1 - pq.1.1, pq.2.2 - pq.1.2)
  let dirsRaw := diffs ++ [diffs.getLastD (0, 0)]
  let dirs := dirsRaw.map fun d =>
    let nrm0 := Real.sqrt (d.1 ^ 2 + d.2 ^ 2)
    let nrm := if nrm0 = 0 then 1 else nrm0
    (d.1 / nrm, d.2 / nrm)
  (dirs, dirs.map fun d => (-d.2, d.1))

/-- Embedding of `BaseRacingLineModel.apply_boundary_constraints` (`base_model.py` lines
113-134): any point farther than `max_offset` from its centerline point is
rescaled along the offset direction so its distance becomes exactly
`max_offset`. -/
noncomputable def apply_boundary_constraints (racing_line track_points : List Point)
    (max_offset : ℝ) : List Point :=
  (List.range racing_line.length).map fun (i : ℕ) =>
    let p := racing_line.getD i (0, 0)
    let c := track_points.getD i (0, 0)
    let d := dist2 p c
    if max_offset < d then
      (c.1 + (p.1 - c.1) * (max_offset / d), c.2 + (p.2 - c.2) * (max_offset / d))
    else p

/-- Embedding of `BaseRacingLineModel.smooth_racing_line` (`base_model.py` lines 37-86),
modelled on its Gaussian-filtering path: the cascaded `gaussian_filter1d`
passes over the x and y coordinate arrays are a correlation with a
nonnegative unit-mass kernel `(w, r)`; the B-spline refit of the primary path
is external `scipy.interpolate` code whose failure triggers exactly this
Gaussian fallback (lines 76-84), and the innermost `except: pass` is the
identity kernel. -/
noncomputable def smooth_racing_line (w : List ℝ) (r : ℤ) (line : List Point) : List Point :=
  (correlate1d w r (line.map Prod.fst)).zip (correlate1d w r (line.map Prod.snd))

/-! ## Basic model (`algorithms/basic_model.py`) -/

/-- Embedding of `np.sign`. -/
noncomputable def signR (x : ℝ) : ℝ := if x < 0 then -1 else if 0 < x then 1 else 0

/-- Embedding of `np.mean(np.abs(l))`; the executed paths only apply it to nonempty slices. -/
noncomputable def npMeanAbs (l : List ℝ) : ℝ := (l.map fun x => |x|).sum / l.length

/-- The inner look-ahead scan of the straight-point branch
(`basic_model.py` lines 84-89): the first index `j` in
`[i+1, i+look_ahead_distance]` with `j < n` and `|sc[j]| > 0.005`. -/
noncomputable def firstCornerIdx (sc : List ℝ) (n i lad : ℕ) : Option ℕ :=
  (List.range' (i + 1) lad).find? fun j => decide (j < n ∧ 0.005 < |sc.getD j 0|)

/-- The body of the per-point loop of `BasicModel.calculate_racing_line`
(`basic_model.py` lines 58-100).  The loop only writes `racing_line[i]` from
`track_points` and the smoothed curvature, so it is a pure map over `i`. -/
noncomputable def basicOffsetPoint (track_points perp : List Point) (sc : List ℝ)
    (max_offset : ℝ) (n : ℕ) (i : ℕ) : Point :=
  let p := track_points.getD i (0, 0)
  if i < 5 ∨ n - 5 < i then p
  else if 0.005 < |sc.getD i 0| then
    -- corner branch (lines 63-80)
    let corner_direction := -signR (sc.getD i 0)
    let corner_severity := min (|sc.getD i 0| * 200) 1.0
    let offset_magnitude := max_offset * corner_severity * 0.6
    let look_ahead := min (i + 12) (n - 1)
    let avg_ahead := npMeanAbs ((sc.drop i).take (look_ahead - i))
    let offset_magnitude :=
      if avg_ahead < 0.005 then offset_magnitude * 0.7 else offset_magnitude
    let q := perp.getD i (0, 0)
    (p.1 + q.1 * (offset_magnitude * corner_direction),
     p.2 + q.2 * (offset_magnitude * corner_direction))
  else
    -- straight branch (lines 82-100)
    let look_ahead_distance := min 12 (n - i - 1)
    match firstCornerIdx sc n i look_ahead_distance with
    | some j =>
      let upcoming_corner_direction := -signR (sc.getD j 0)
      let setup_offset := max_offset * 0.5 * (-upcoming_corner_direction)
      let transition_factor :=
        max 0.1 (1 - (((j - i : ℕ) : ℝ)) / (look_ahead_distance : ℝ))
      let q := perp.getD i (0, 0)
      (p.1 + q.1 * (setup_offset * transition_factor),
       p.2 + q.2 * (setup_offset * transition_factor))
    | none => p

/-- Embedding of `BasicModel.calculate_racing_line` (`basic_model.py` lines 26-114),
parameterized by the curvature-smoothing kernel `(wCurv, rCurv)` standing for
`gaussian_filter1d(curvature, sigma=5.0)` (the `except` branch is the identity
kernel) and the final-smoothing kernel `(wSm, rSm)` for
`smooth_racing_line(..., "heavy")`.  The initial
`np.where(np.isfinite(curvature), curvature, 0.0)` is the identity over ℝ. -/
noncomputable def basicModel_calculate_racing_line (wCurv : List ℝ) (rCurv : ℤ)
    (wSm : List ℝ) (rSm : ℤ) (track_points : List Point) (curvature : List ℝ)
    (track_width : ℝ) : List Point :=
  let n := track_points.length
  let perp := (calculate_track_vectors track_points).2
  let max_offset := track_width * 0.3  -- use 30% of track width (60% total)
  let sc := correlate1d wCurv rCurv curvature
  let line0 := (List.range n).map (basicOffsetPoint track_points perp sc max_offset n)
  let line1 := apply_boundary_constraints line0 track_points max_offset
  let line2 := smooth_racing_line wSm rSm line1
  if 2 < n ∧ isCloseP (track_points.headD (0, 0)) (track_points.getLastD (0, 0)) then
    if ¬ isCloseP (line2.headD (0, 0)) (line2.getLastD (0, 0)) then
      line2.set (line2.length - 1) (line2.headD (0, 0))
    else line2
  else line2

/-! ## C6: offset bound -/

theorem dist2_scale (p c : Point) (t : ℝ) :
    dist2 (c.1 + (p.1 - c.1) * t, c.2 + (p.2 - c.2) * t) c = |t| * dist2 p c := by
  unfold dist2
  rw [show (c.1 + (p.1 - c.1) * t - c.1) ^ 2 + (c.2 + (p.2 - c.2) * t - c.2) ^ 2
      = t ^ 2 * ((p.1 - c.1) ^ 2 + (p.2 - c.2) ^ 2) by ring]
  rw [Real.sqrt_mul (sq_nonneg t), Real.sqrt_sq_eq_abs]

/-- C6 as amended.  Immediately after `apply_boundary_constraints`, every
racing-line point is within `max_offset` of its centerline point (points
beyond the bound are rescaled to lie at exactly `max_offset`); both models
call this with `max_offset = trackWidth × usageFraction` (0.4 physics /
0.3 basic) BEFORE the final smoothing passes, which are not re-constrained
and can move points far outside the bound (see the counterexample). -/
theorem boundary_constraints_offset_bound (racing_line track_points : List Point)
    (max_offset : ℝ) (hmo : 0 ≤ max_offset) (i : ℕ) (hi : i < racing_line.length) :
    dist2 ((apply_boundary_constraints racing_line track_points max_offset).getD i (0, 0))
      (track_points.getD i (0, 0)) ≤ max_offset := by
  unfold apply_boundary_constraints
  have hlen : i < ((List.range racing_line.length).map fun (i : ℕ) =>
      let p := racing_line.getD i (0, 0)
      let c := track_points.getD i (0, 0)
      let d := dist2 p c
      if max_offset < d then
        (c.1 + (p.1 - c.1) * (max_offset / d), c.2 + (p.2 - c.2) * (max_offset / d))
      else p).length := by
    simpa using hi
  rw [List.getD_eq_getElem _ _ hlen, List.getElem_map, List.getElem_range]
  dsimp only
  split_ifs with hd
  · have hdpos : 0 < dist2 (racing_line.getD i (0, 0)) (track_points.getD i (0, 0)) :=
      lt_of_le_of_lt hmo hd
    rw [dist2_scale, abs_of_nonneg (div_nonneg hmo hdpos.le),
      div_mul_cancel₀ _ (ne_of_gt hdpos)]
  · exact le_of_not_lt hd

theorem boundary_constraints_offset_bound_witness :
    (0 : ℝ) ≤ 1 ∧ 0 < ([((5 : ℝ), (0 : ℝ))] : List Point).length ∧
    dist2 ((apply_boundary_constraints [((5 : ℝ), (0 : ℝ))] [((0 : ℝ), (0 : ℝ))] 1).getD 0 (0, 0))
      (([((0 : ℝ), (0 : ℝ))] : List Point).getD 0 (0, 0)) ≤ 1 :=
  ⟨by norm_num, by norm_num,
    boundary_constraints_offset_bound [((5 : ℝ), (0 : ℝ))] [((0 : ℝ), (0 : ℝ))] 1
      (by norm_num) 0 (by norm_num)⟩

/-- A closed 9-point square track of side 200 (first point = last point). -/
noncomputable def sq9 : List Point :=
  [(0, 0), (100, 0), (200, 0), (200, 100), (200, 200),
   (100, 200), (0, 200), (0, 100), (0, 0)]

/-- On a 9-point track the per-point loop of the basic model touches nothing:
every index satisfies `i < 5 or i > n_points - 5`, so the loop output is the
centerline itself, whatever the curvature and perpendiculars are. -/
theorem basic_loop_skips_all (perp : List Point) (sc : List ℝ) (mo : ℝ) :
    (List.range 9).map (basicOffsetPoint sq9 perp sc mo 9) = sq9 := by
  have h : ∀ i : ℕ, (i < 5 ∨ 9 - 5 < i) →
      basicOffsetPoint sq9 perp sc mo 9 i = sq9.getD i (0, 0) := by
    intro i hi
    unfold basicOffsetPoint
    rw [if_pos hi]
  rw [show List.range 9 = [0, 1, 2, 3, 4, 5, 6, 7, 8] from rfl]
  simp only [List.map_cons, List.map_nil]
  rw [h 0 (by norm_num), h 1 (by norm_num), h 2 (by norm_num), h 3 (by norm_num),
    h 4 (by norm_num), h 5 (by norm_num), h 6 (by norm_num), h 7 (by norm_num),
    h 8 (by norm_num)]
  rfl

/-- Boundary constraints are the identity when the racing line still equals
the centerline. -/
theorem apply_boundary_constraints_self (l : List Point) (mo : ℝ) (hmo : 0 ≤ mo) :
    apply_boundary_constraints l l mo = l := by
  unfold apply_boundary_constraints
  refine List.ext_getElem (by simp) fun i hi hi2 => ?_
  simp only [List.getElem_map, List.getElem_range]
  rw [dist2_self, if_neg (not_lt.mpr hmo), List.getD_eq_getElem l (0, 0) hi2]

theorem sq9_smooth_x :
    correlate1d [1/4, 1/2, 1/4] 1
        ([0, 100, 200, 200, 200, 100, 0, 0, 0] : List ℝ)
      = [25, 100, 175, 200, 175, 100, 25, 0, 0] := by
  unfold correlate1d
  rw [show (([0, 100, 200, 200, 200, 100, 0, 0, 0] : List ℝ)).length = 9 from rfl,
    show (([1/4, 1/2, 1/4] : List ℝ)).length = 3 from rfl,
    show List.range 9 = [0, 1, 2, 3, 4, 5, 6, 7, 8] from rfl]
  simp only [List.map_cons, List.map_nil, Finset.sum_range_succ, Finset.sum_range_zero]
  norm_num [reflectIdx, List.getD]
  norm_num [show Int.toNat 2 = 2 from rfl, show Int.toNat 3 = 3 from rfl,
    show Int.toNat 4 = 4 from rfl, show Int.toNat 5 = 5 from rfl,
    show Int.toNat 6 = 6 from rfl, show Int.toNat 7 = 7 from rfl,
    show Int.toNat 8 = 8 from rfl, show Int.toNat 9 = 9 from rfl]

theorem sq9_smooth_y :
    correlate1d [1/4, 1/2, 1/4] 1
        ([0, 0, 0, 100, 200, 200, 200, 100, 0] : List ℝ)
      = [0, 0, 25, 100, 175, 200, 175, 100, 25] := by
  unfold correlate1d
  rw [show (([0, 0, 0, 100, 200, 200, 200, 100, 0] : List ℝ)).length = 9 from rfl,
    show (([1/4, 1/2, 1/4] : List ℝ)).length = 3 from rfl,
    show List.range 9 = [0, 1, 2, 3, 4, 5, 6, 7, 8] from rfl]
  simp only [List.map_cons, List.map_nil, Finset.sum_range_succ, Finset.sum_range_zero]
  norm_num [reflectIdx, List.getD]
  norm_num [show Int.toNat 2 = 2 from rfl, show Int.toNat 3 = 3 from rfl,
    show Int.toNat 4 = 4 from rfl, show Int.toNat 5 = 5 from rfl,
    show Int.toNat 6 = 6 from rfl, show Int.toNat 7 = 7 from rfl,
    show Int.toNat 8 = 8 from rfl, show Int.toNat 9 = 9 from rfl]

theorem sq9_smooth_eval :
    smooth_racing_line [1/4, 1/2, 1/4] 1 sq9
      = [(25, 0), (100, 0), (175, 25), (200, 100), (175, 175),
         (100, 200), (25, 175), (0, 100), (0, 25)] := by
  unfold smooth_racing_line
  rw [show sq9.map Prod.fst = ([0, 100, 200, 200, 200, 100, 0, 0, 0] : List ℝ) from rfl,
    show sq9.map Prod.snd = ([0, 0, 0, 100, 200, 200, 200, 100, 0] : List ℝ) from rfl,
    sq9_smooth_x, sq9_smooth_y]
  rfl

/-- C6 counterexample.  Run the basic model on the closed 9-point square
`sq9` with `track_width = 1` (so `trackWidth × usageFraction = 0.3`), the
identity kernel for the curvature smoothing (the source's bare `except`
branch) and the kernel `[1/4, 1/2, 1/4]` for the final smoothing pass.
On so short a track the offset loop leaves the centerline untouched and the
boundary-constraint step is the identity, but the final smoothing pulls the
corner point at index 2 from `(200, 0)` to `(175, 25)`: distance `√1250 ≈ 35.4`
from its centerline point, far beyond `trackWidth × usageFraction + ε` even
for ε as large as 1 (the closure tolerance in the code is `1e-3`). -/
theorem offset_bound_after_smoothing_counterexample :
    1 * 0.3 + 1 <
      dist2 ((basicModel_calculate_racing_line [1] 0 [1/4, 1/2, 1/4] 1 sq9
        (compute_curvature sq9) 1).getD 2 (0, 0)) (sq9.getD 2 (0, 0)) := by
  have h1 := basic_loop_skips_all ((calculate_track_vectors sq9).2)
    (correlate1d [1] 0 (compute_curvature sq9)) (1 * 0.3)
  have h2 : apply_boundary_constraints sq9 sq9 (1 * 0.3) = sq9 :=
    apply_boundary_constraints_self sq9 (1 * 0.3) (by norm_num)
  have hL : basicModel_calculate_racing_line [1] 0 [1/4, 1/2, 1/4] 1 sq9
      (compute_curvature sq9) 1
      = [(25, 0), (100, 0), (175, 25), (200, 100), (175, 175),
         (100, 200), (25, 175), (0, 100), (25, 0)] := by
    unfold basicModel_calculate_racing_line
    rw [show sq9.length = 9 from rfl]
    dsimp only
    rw [h1, h2, sq9_smooth_eval]
    rw [if_pos ⟨by norm_num,
      by rw [show sq9.headD (0, 0) = ((0 : ℝ), (0 : ℝ)) from rfl,
        show sq9.getLastD (0, 0) = ((0 : ℝ), (0 : ℝ)) from rfl]; exact isCloseP_refl _⟩]
    rw [if_pos (by
      intro h
      rcases h with ⟨hx, _⟩
      norm_num at hx)]
    rfl
  rw [hL]
  rw [show (([(25, 0), (100, 0), (175, 25), (200, 100), (175, 175),
      (100, 200), (25, 175), (0, 100), (25, 0)] : List Point)).getD 2 (0, 0)
      = ((175 : ℝ), (25 : ℝ)) from rfl,
    show sq9.getD 2 (0, 0) = ((200 : ℝ), (0 : ℝ)) from rfl]
  rw [show dist2 ((175 : ℝ), (25 : ℝ)) ((200 : ℝ), (0 : ℝ)) = Real.sqrt 1250 by
    unfold dist2; norm_num]
  have h13 : ((1 : ℝ) * 0.3 + 1) ^ 2 < 1250 := by norm_num
  calc (1 : ℝ) * 0.3 + 1 ≤ |(1 : ℝ) * 0.3 + 1| := le_abs_self _
    _ = Real.sqrt (((1 : ℝ) * 0.3 + 1) ^ 2) := (Real.sqrt_sq_eq_abs _).symm
    _ < Real.sqrt 1250 := by
        apply Real.sqrt_lt_sqrt (sq_nonneg _) h13

/-! ## Curvilinear track geometry (`curvilinear_coordinates.py` lines 59-137)

`_calculate_track_geometry` computes tangent and normal vectors with code
identical to `calculate_track_vectors` (diff, duplicate last, normalize with
zero guard), then the arc-length array and the signed curvature below. -/

/-- Segment lengths `np.linalg.norm(np.diff(centerline, axis=0), axis=1)`
(`curvilinear_coordinates.py` line 76). -/
noncomputable def segmentLengthsOf (centerline : List Point) : List ℝ :=
  (centerline.zip centerline.tail).map fun pq => dist2 pq.2 pq.1

/-- Embedding of the arc-length array `s_points = np.concatenate([[0], np.cumsum(segment_lengths)])`
(`curvilinear_coordinates.py` line 77). -/
noncomputable def sPointsOf (centerline : List Point) : List ℝ :=
  List.scanl (· + ·) 0 (segmentLengthsOf centerline)

theorem scanl_ne_nil {α β : Type} (f : β → α → β) (a : β) (l : List α) :
    List.scanl f a l ≠ [] := by
  cases l <;> simp [List.scanl]

theorem scanl_add_getLastD (l : List ℝ) (a d : ℝ) :
    (List.scanl (· + ·) a l).getLastD d = a + l.sum := by
  induction l generalizing a d with
  | nil => simp [List.scanl]
  | cons x xs ih =>
    rw [List.scanl_cons, List.singleton_append, List.getLastD_cons, ih, List.sum_cons]
    ring

theorem scanl_add_chain (l : List ℝ) (a : ℝ) (hl : ∀ x ∈ l, 0 ≤ x) :
    List.Chain' (· ≤ ·) (List.scanl (· + ·) a l) := by
  induction l generalizing a with
  | nil => simp
  | cons x xs ih =>
    rw [List.scanl_cons, List.singleton_append]
    refine List.chain'_cons'.mpr ⟨?_, ih (a + x) fun y hy => hl y (List.mem_cons_of_mem _ hy)⟩
    intro y hy
    have hhead : (List.scanl (· + ·) (a + x) xs).head? = some (a + x) := by
      cases xs <;> simp [List.scanl]
    rw [hhead, Option.mem_some_iff] at hy
    have hx : 0 ≤ x := hl x (List.mem_cons_self x xs)
    rw [← hy]
    linarith

/-- C9.  For every nonempty centerline, the arc-length array `s_points`
built by `_calculate_track_geometry` has the same length as the centerline,
is monotonically non-decreasing, starts at 0 and ends at the total polyline
length (the sum of all segment lengths), hence spans `[0, totalLength]`. -/
theorem s_points_invariants (centerline : List Point) (h : centerline ≠ []) :
    (sPointsOf centerline).length = centerline.length ∧
    (sPointsOf centerline).Pairwise (· ≤ ·) ∧
    (sPointsOf centerline).headD 0 = 0 ∧
    (sPointsOf centerline).getLastD 0 = (segmentLengthsOf centerline).sum := by
  have hn : 0 < centerline.length := List.length_pos.mpr h
  have hnonneg : ∀ x ∈ segmentLengthsOf centerline, 0 ≤ x := by
    intro x hx
    rcases List.mem_map.1 hx with ⟨pq, _, rfl⟩
    exact dist2_nonneg _ _
  refine ⟨?_, ?_, ?_, ?_⟩
  · unfold sPointsOf segmentLengthsOf
    rw [List.length_scanl, List.length_map, List.length_zip, List.length_tail]
    omega
  · exact List.chain'_iff_pairwise.mp (scanl_add_chain _ 0 hnonneg)
  · unfold sPointsOf
    cases segmentLengthsOf centerline <;> rfl
  · unfold sPointsOf
    rw [scanl_add_getLastD, zero_add]

theorem s_points_invariants_witness :
    ([((0 : ℝ), (0 : ℝ)), ((3 : ℝ), (4 : ℝ))] : List Point) ≠ [] ∧
    ((sPointsOf [((0 : ℝ), (0 : ℝ)), ((3 : ℝ), (4 : ℝ))]).length = 2 ∧
      (sPointsOf [((0 : ℝ), (0 : ℝ)), ((3 : ℝ), (4 : ℝ))]).Pairwise (· ≤ ·) ∧
      (sPointsOf [((0 : ℝ), (0 : ℝ)), ((3 : ℝ), (4 : ℝ))]).headD 0 = 0 ∧
      (sPointsOf [((0 : ℝ), (0 : ℝ)), ((3 : ℝ), (4 : ℝ))]).getLastD 0
        = (segmentLengthsOf [((0 : ℝ), (0 : ℝ)), ((3 : ℝ), (4 : ℝ))]).sum) := by
  have h : ([((0 : ℝ), (0 : ℝ)), ((3 : ℝ), (4 : ℝ))] : List Point) ≠ [] := by simp
  exact ⟨h, s_points_invariants _ h⟩

/-- Embedding of `np.arctan2 y x`. -/
noncomputable def atan2 (y x : ℝ) : ℝ :=
  if 0 < x then Real.arctan (y / x)
  else if x < 0 ∧ 0 ≤ y then Real.arctan (y / x) + π
  else if x < 0 ∧ y < 0 then Real.arctan (y / x) - π
  else if x = 0 ∧ 0 < y then π / 2
  else if x = 0 ∧ y < 0 then -(π / 2)
  else 0

/-- One `np.unwrap` correction: the difference `d` is wrapped into `(-π, π]`
(`mod(d + π, 2π) - π`, with the `-π`-and-positive special case mapped to `π`),
and the correction is applied only where `|d| >= π` (numpy's default
`discont = π`). -/
noncomputable def wrapCorrection (d : ℝ) : ℝ :=
  let m := (d + π) - 2 * π * ⌊(d + π) / (2 * π)⌋
  let dd0 := m - π
  let dd := if dd0 = -π ∧ 0 < d then π else dd0
  if |d| < π then 0 else dd - d

/-- Embedding of `np.cumsum`. -/
noncomputable def cumsumR (l : List ℝ) : List ℝ := (List.scanl (· + ·) 0 l).tail

/-- Embedding of `np.unwrap`: the first angle is kept and each later angle is shifted by
the cumulative sum of the wrap corrections of the consecutive differences. -/
noncomputable def npUnwrap (l : List ℝ) : List ℝ :=
  match l with
  | [] => []
  | a :: rest =>
    let diffs := (l.zip rest).map fun pq => pq.2 - pq.1
    a :: (rest.zip (cumsumR (diffs.map wrapCorrection))).map fun xc => xc.1 + xc.2

/-- Embedding of `_calculate_curvature` (`curvilinear_coordinates.py` lines 91-137):
track angles from `arctan2` of the normalized tangents, `np.unwrap`, a
weighted central difference `dθ/ds` at interior points (zeros elsewhere),
boundary values copied from their neighbours, then
`gaussian_filter1d(curvature, sigma=1.0)` modelled by the kernel `(w, r)`.
This curvature is SIGNED: angles decrease along a right turn. -/
noncomputable def curvilinear_curvature (w : List ℝ) (r : ℤ) (centerline : List Point) : List ℝ :=
  let tangents := (calculate_track_vectors centerline).1
  let s := sPointsOf centerline
  let angles := npUnwrap (tangents.map fun t => atan2 t.2 t.1)
  let n := angles.length
  let raw := (List.range n).map fun (i : ℕ) =>
    if i = 0 ∨ n - 1 ≤ i then 0
    else
      let dsf := s.getD (i + 1) 0 - s.getD i 0
      let dsb := s.getD i 0 - s.getD (i - 1) 0
      if 0 < dsf ∧ 0 < dsb then
        ((1 / dsf) * (angles.getD (i + 1) 0 - angles.getD i 0) / dsf
          + (1 / dsb) * (angles.getD i 0 - angles.getD (i - 1) 0) / dsb)
          / (1 / dsf + 1 / dsb)
      else 0
  let raw2 :=
    if 2 < n then
      let raw1 := raw.set 0 (raw.getD 1 0)
      raw1.set (n - 1) (raw1.getD (n - 2) 0)
    else raw
  correlate1d w r raw2

/-- A valid closed polyline that turns right everywhere: the unit square
traversed clockwise. -/
noncomputable def squareCW : List Point := [(0, 0), (0, 1), (1, 1), (1, 0), (0, 0)]

theorem squareCW_tangents :
    (calculate_track_vectors squareCW).1
      = [(0, 1), (1, 0), (0, -1), (-1, 0), (-1, 0)] := by
  unfold calculate_track_vectors squareCW
  simp only [List.tail_cons, List.zip_cons_cons, List.zip_nil_right,
    List.map_cons, List.map_nil, List.getLastD_cons, List.getLastD_nil,
    List.cons_append, List.nil_append]
  norm_num

theorem atan2_up : atan2 1 0 = π / 2 := by
  unfold atan2
  norm_num

theorem atan2_right : atan2 0 1 = 0 := by
  unfold atan2
  norm_num [Real.arctan_zero]

theorem atan2_down : atan2 (-1) 0 = -(π / 2) := by
  unfold atan2
  norm_num

theorem atan2_left : atan2 0 (-1) = π := by
  unfold atan2
  norm_num [Real.arctan_zero]

theorem wrapCorrection_small (d : ℝ) (h : |d| < π) : wrapCorrection d = 0 := by
  unfold wrapCorrection
  dsimp only
  rw [if_pos h]

theorem wrapCorrection_3pi2 : wrapCorrection (3 * π / 2) = -(2 * π) := by
  have hpi := Real.pi_pos
  have hfloor : ⌊(3 * π / 2 + π) / (2 * π)⌋ = 1 := by
    rw [show (3 * π / 2 + π) / (2 * π) = 5 / 4 by
      field_simp
      ring]
    norm_num
  unfold wrapCorrection
  dsimp only
  rw [hfloor]
  rw [if_neg (by
    rw [abs_of_nonneg (by positivity)]
    intro h
    linarith)]
  rw [if_neg (by
    rintro ⟨h, -⟩
    nlinarith)]
  push_cast
  ring

theorem squareCW_unwrap :
    npUnwrap [π / 2, 0, -(π / 2), π, π] = [π / 2, 0, -(π / 2), -π, -π] := by
  have hpi := Real.pi_pos
  have hsmall : ∀ d : ℝ, d = -(π / 2) ∨ d = 0 → wrapCorrection d = 0 := by
    rintro d (rfl | rfl) <;>
      refine wrapCorrection_small _ ?_
    · rw [abs_neg, abs_of_nonneg (by positivity)]
      linarith
    · rw [abs_zero]
      linarith
  unfold npUnwrap
  simp only [List.zip_cons_cons, List.zip_nil_right, List.map_cons, List.map_nil]
  rw [show (0 : ℝ) - π / 2 = -(π / 2) by ring, show -(π / 2) - 0 = -(π / 2) by ring,
    show π - -(π / 2) = 3 * π / 2 by ring, show π - π = (0 : ℝ) by ring]
  rw [hsmall _ (Or.inl rfl), hsmall _ (Or.inr rfl), wrapCorrection_3pi2]
  unfold cumsumR
  simp only [List.scanl_cons, List.singleton_append, List.scanl_nil,
    List.tail_cons, List.zip_cons_cons, List.zip_nil_right,
    List.map_cons, List.map_nil]
  norm_num
  all_goals ring

theorem squareCW_sPoints : sPointsOf squareCW = [0, 1, 2, 3, 4] := by
  have h01 : dist2 ((0 : ℝ), (1 : ℝ)) ((0 : ℝ), (0 : ℝ)) = 1 := by
    simp [dist2]
  have h11 : dist2 ((1 : ℝ), (1 : ℝ)) ((0 : ℝ), (1 : ℝ)) = 1 := by
    rw [show dist2 ((1 : ℝ), (1 : ℝ)) ((0 : ℝ), (1 : ℝ))
        = Real.sqrt (((1 : ℝ) - 0) ^ 2 + ((1 : ℝ) - 1) ^ 2) from rfl]
    norm_num
  have h10 : dist2 ((1 : ℝ), (0 : ℝ)) ((1 : ℝ), (1 : ℝ)) = 1 := by
    rw [show dist2 ((1 : ℝ), (0 : ℝ)) ((1 : ℝ), (1 : ℝ))
        = Real.sqrt (((1 : ℝ) - 1) ^ 2 + ((0 : ℝ) - 1) ^ 2) from rfl]
    norm_num
  have h00 : dist2 ((0 : ℝ), (0 : ℝ)) ((1 : ℝ), (0 : ℝ)) = 1 := by
    rw [show dist2 ((0 : ℝ), (0 : ℝ)) ((1 : ℝ), (0 : ℝ))
        = Real.sqrt (((0 : ℝ) - 1) ^ 2 + ((0 : ℝ) - 0) ^ 2) from rfl]
    norm_num
  unfold sPointsOf segmentLengthsOf squareCW
  simp only [List.tail_cons, List.zip_cons_cons, List.zip_nil_right,
    List.map_cons, List.map_nil]
  rw [h01, h11, h10, h00]
  simp only [List.scanl_cons, List.singleton_append, List.scanl_nil]
  norm_num

theorem squareCW_curvature (w : List ℝ) (r : ℤ) :
    curvilinear_curvature w r squareCW
      = correlate1d w r [-(π / 2), -(π / 2), -(π / 2), -(π / 4), -(π / 4)] := by
  unfold curvilinear_curvature
  rw [squareCW_tangents, squareCW_sPoints]
  simp only [List.map_cons, List.map_nil]
  rw [atan2_up, atan2_right, atan2_down]
  simp only [atan2_left]
  rw [squareCW_unwrap]
  rw [show ([π / 2, 0, -(π / 2), -π, -π] : List ℝ).length = 5 from rfl]
  rw [show List.range 5 = [0, 1, 2, 3, 4] from rfl]
  simp only [List.map_cons, List.map_nil]
  congr 1
  norm_num [List.getD, List.set_cons_zero, List.set_cons_succ]
  exact ⟨by ring, by ring⟩

/-- C7.  The curvature array produced by the track-geometry processing of the
curvilinear coordinate system is signed: on the valid closed polyline
`squareCW`, which turns right (clockwise) everywhere, every entry — and in
particular at least one entry — of the curvature array is strictly negative,
for every valid smoothing kernel (covering `gaussian_filter1d(_, sigma=1.0)`).
Positive curvature is a left turn by the `arctan2`-based angle convention. -/
theorem track_geometry_curvature_negative_on_right_turn (w : List ℝ) (r : ℤ)
    (hw : KernelNonneg w) (hu : KernelUnit w) :
    ∃ c ∈ curvilinear_curvature w r squareCW, c < 0 := by
  rw [squareCW_curvature]
  have hpi := Real.pi_pos
  have hall : ∀ x ∈ ([-(π / 2), -(π / 2), -(π / 2), -(π / 4), -(π / 4)] : List ℝ),
      x ≤ -(π / 4) := by
    intro x hx
    simp only [List.mem_cons, List.not_mem_nil, or_false] at hx
    rcases hx with rfl | rfl | rfl | rfl | rfl <;> linarith
  have hle := correlate1d_le w r _ (-(π / 4)) hw hu hall
  have hlen : (correlate1d w r
      ([-(π / 2), -(π / 2), -(π / 2), -(π / 4), -(π / 4)] : List ℝ)).length = 5 := by
    rw [correlate1d_length]
    rfl
  have h05 : 0 < (correlate1d w r
      ([-(π / 2), -(π / 2), -(π / 2), -(π / 4), -(π / 4)] : List ℝ)).length := by
    omega
  have hmem : (correlate1d w r
      ([-(π / 2), -(π / 2), -(π / 2), -(π / 4), -(π / 4)] : List ℝ)).getD 0 0
      ∈ correlate1d w r ([-(π / 2), -(π / 2), -(π / 2), -(π / 4), -(π / 4)] : List ℝ) := by
    rw [List.getD_eq_getElem _ 0 h05]
    exact List.getElem_mem h05
  exact ⟨_, hmem, lt_of_le_of_lt (hle _ hmem) (by linarith)⟩

theorem track_geometry_curvature_negative_witness :
    KernelNonneg [1] ∧ KernelUnit [1] ∧
      ∃ c ∈ curvilinear_curvature [1] 0 squareCW, c < 0 :=
  ⟨kernel_one_valid.1, kernel_one_valid.2,
    track_geometry_curvature_negative_on_right_turn [1] 0
      kernel_one_valid.1 kernel_one_valid.2⟩

/-! ## The optimize pipeline (`optimizer.py` lines 242-470) -/

/-- The registered models (`optimizer.py` lines 16-25). -/
inductive RacingLineModel
  | physics_based
  | basic
deriving DecidableEq

/-- A Python positional-call signature: required and maximum positional
parameter counts, `self` excluded. -/
structure PySignature where
  requiredArgs : ℕ
  maxArgs : ℕ

/-- The `calculate_racing_line` signatures of the registered model classes:
`PhysicsBasedModel.calculate_racing_line(self, track_points, curvature,
track_width, car_params=None, friction=1.0)` (`algorithms/physics_model.py`
lines 29-30) and `BasicModel.calculate_racing_line(self, track_points,
curvature, track_width)` (`algorithms/basic_model.py` line 26). -/
def modelSig : RacingLineModel → PySignature
  | .physics_based => { requiredArgs := 3, maxArgs := 5 }
  | .basic => { requiredArgs := 3, maxArgs := 3 }

/-- Python accepts a positional call of `n` arguments iff
`required <= n <= max`; otherwise the call raises `TypeError`. -/
def acceptsCall (sig : PySignature) (n : ℕ) : Bool :=
  decide (sig.requiredArgs ≤ n) && decide (n ≤ sig.maxArgs)

/-- The call site `optimize_racing_line` passes 5 positional arguments to
`racing_model.calculate_racing_line` (`optimizer.py` lines 311-313):
resampled points, curvature, track width, car_params, friction. -/
def optimizerCallArgCount : ℕ := 5

def indexErrorMsg : String := "IndexError: index 0 is out of bounds for axis 0 with size 0"
def splprepErrorMsg : String := "TypeError: m > k must hold"
def wrongArityMsg : String :=
  "TypeError: calculate_racing_line() takes 4 positional arguments but 6 were given"

/-- The point list produced by a successful periodic-spline resampling
(`optimizer.py` lines 44-56): the external spline samples with the first one
appended to close the loop. -/
noncomputable def resampleOk (splineOut : List Point) : List Point :=
  splineOut ++ [splineOut.headD (0, 0)]

/-- Embedding of `resample_track_points` (`optimizer.py` lines 27-71): close the polyline
if first and last are not already allclose, then fit a periodic cubic spline.
`scipy.interpolate.splprep` (cubic, `k = 3`) rejects inputs with at most 3
points (`m > k must hold`); the periodic attempt's failure is caught but the
non-periodic fallback (line 61) raises the same error, which propagates.
The spline samples of the successful case are the external `splineOut`. -/
noncomputable def resample_track_points (splineOut : List Point) (points : List Point)
    (_num_points : ℕ) : Except String (List Point) :=
  let pts := if isCloseP (points.headD (0, 0)) (points.getLastD (0, 0)) then points
    else points ++ [points.headD (0, 0)]
  if pts.length ≤ 3 then .error splprepErrorMsg
  else .ok (resampleOk splineOut)

/-- First index of the minimum (`np.argmin`). -/
noncomputable def idxOfMin (l : List ℝ) : ℕ :=
  (List.range l.length).foldl
    (fun best i => if l.getD i 0 < l.getD best 0 then i else best) 0

/-- Rotation of the resampled points so they start at the index closest to
the original start position (`optimizer.py` lines 251-267):
`resampled[start_idx:]` followed by `resampled[1:start_idx+1]`. -/
noncomputable def rotateToStart (trackPts resampled : List Point) : List Point :=
  let original_start := trackPts.headD (0, 0)
  let start_idx := idxOfMin (resampled.map fun p => dist2 p original_start)
  if start_idx ≠ 0 then
    resampled.drop start_idx ++ (resampled.take (start_idx + 1)).drop 1
  else resampled

/-- The re-closure step `if not np.allclose(line[0], line[-1], atol=1e-3):
line = np.vstack([line, line[0]])` used at `optimizer.py` lines 317-319,
339-341 and 464-466. -/
noncomputable def closeLine (line : List Point) : List Point :=
  if isCloseP (line.headD (0, 0)) (line.getLastD (0, 0)) then line
  else line ++ [line.headD (0, 0)]

/-- Embedding of `create_separated_racing_lines` (`optimizer.py` lines 381-470).  The
direction/perpendicular vectors (lines 392-402) are the same computation as
`calculate_track_vectors`; the three cascaded `gaussian_filter1d` passes are
modelled by one kernel correlation `(wSep, rSep)` (the bare `except: pass`
is the identity kernel).  The rescaled `min_separation` of the capping
branch (line 425) is never read afterwards and is omitted. -/
noncomputable def create_separated_racing_lines (wSep : List ℝ) (rSep : ℤ)
    (track_points base : List Point) (track_width : ℝ) (num_cars : ℕ) :
    List (List Point) :=
  let perp := (calculate_track_vectors track_points).2
  let min_separation := min 3.0 (track_width * 0.2)
  let max_usable_width := track_width * 0.8
  let offsets : List ℝ :=
    if num_cars = 2 then [-(min_separation * 0.7), min_separation * 0.7]
    else if num_cars = 3 then [-min_separation, 0, min_separation]
    else if num_cars = 4 then
      [-(min_separation * 1.2), -(min_separation * 0.4),
       min_separation * 0.4, min_separation * 1.2]
    else
      let nc := if 6 < num_cars then 6 else num_cars
      let total_width0 := min_separation * ((nc : ℝ) - 1)
      let total_width :=
        if max_usable_width < total_width0 then max_usable_width else total_width0
      (List.range nc).map fun (i : ℕ) =>
        -(total_width / 2) + (i : ℝ) * (total_width / ((nc : ℝ) - 1))
  offsets.map fun off =>
    let line := (List.range base.length).map fun (j : ℕ) =>
      let q := perp.getD j (0, 0)
      let ov : Point := (q.1 * off, q.2 * off)
      let proposed : Point :=
        ((base.getD j (0, 0)).1 + ov.1, (base.getD j (0, 0)).2 + ov.2)
      let c := track_points.getD j (0, 0)
      let d := dist2 proposed c
      let max_allowed := track_width * 0.45
      if d ≤ max_allowed then proposed
      else (c.1 + ov.1 * (max_allowed / d), c.2 + ov.2 * (max_allowed / d))
    closeLine (smooth_racing_line wSep rSep line)

/-- One per-vehicle result entry (`optimizer.py` lines 361-367 / 371-377). -/
structure CarLine where
  car_id : String
  coordinates : List Point
  speeds : List ℝ
  lap_time : ℝ
  model : RacingLineModel

noncomputable def defaultCar : Car :=
  { id := "", mass := 0, length := 0, width := 0, max_steering_angle := 0,
    max_acceleration := 0, drag_coefficient := 0, lift_coefficient := 0,
    frontal_area := none }

noncomputable def defaultCarLine : CarLine :=
  { car_id := "", coordinates := [], speeds := [], lap_time := 0,
    model := RacingLineModel.physics_based }

/-- The body of the per-vehicle loop (`optimizer.py` lines 334-377): the
`try` block computes this vehicle's racing line (re-closed), curvature and
speed profile; when the oracle `raises` says this vehicle's computation
raises, the `except` block produces the fallback entry instead: the
resampled centerline coordinates, a constant 10.0 speed array, and the
estimated lap time `0.1 * len(resampled_points)`.  `clean_for_json` is the
identity over ℝ. -/
noncomputable def perCarEntry (rotated : List Point) (lines : List (List Point))
    (base : List Point) (raises : ℕ → Bool) (modelId : RacingLineModel)
    (friction : ℝ) (wSpeed : List ℝ) (rSpeed : ℤ) (i : ℕ) (car : Car) : CarLine :=
  if raises i then
    { car_id := car.id, coordinates := rotated,
      speeds := List.replicate rotated.length 10.0,
      lap_time := (rotated.length : ℝ) * 0.1, model := modelId }
  else
    let racing_line := closeLine (if i < lines.length then lines.getD i [] else base)
    let racing_curvature := compute_curvature racing_line
    let sp := calculate_speed_profile wSpeed rSpeed racing_line racing_curvature friction car
    { car_id := car.id, coordinates := racing_line, speeds := sp.1,
      lap_time := sp.2, model := modelId }

/-- Embedding of `optimize_racing_line` (`optimizer.py` lines 242-379).
`calc` is the selected model's `calculate_racing_line` as a function of the
five passed arguments (both registered models are dispatched through the same
call site, which raises `TypeError` if the model's signature cannot accept
the 5 positional arguments); `splineOut` is the external periodic-spline
sample list of the resampling step; `(wSpeed, rSpeed)` and `(wSep, rSep)` are
the speed-profile and lane-separation smoothing kernels; `raises` is the
per-vehicle exception oracle of the `try/except` loop.  An empty point list
raises `IndexError` at `track_points[0]` (line 252).  The `friction`
variable is first defaulted to 1.0 (line 277) and then overwritten with the
track's friction (line 300), so the track value is what is used. -/
noncomputable def optimize_racing_line
    (calcFn : List Point → List ℝ → ℝ → Option CarParams → ℝ → List Point)
    (splineOut : List Point) (wSpeed : List ℝ) (rSpeed : ℤ)
    (wSep : List ℝ) (rSep : ℤ) (raises : ℕ → Bool)
    (track : Track) (modelId : RacingLineModel) : Except String (List CarLine) :=
  if track.track_points = [] then .error indexErrorMsg
  else
    match resample_track_points splineOut track.track_points
        (min 100 track.track_points.length) with
    | .error e => .error e
    | .ok resampled =>
      let rotated := rotateToStart track.track_points resampled
      let curvature := compute_curvature rotated
      if acceptsCall (modelSig modelId) optimizerCallArgCount then
        let car_params := track.cars.head?.map carParamsOf
        let friction := track.friction
        let base := closeLine (calcFn rotated curvature track.width car_params friction)
        let num_cars := track.cars.length
        let racing_lines :=
          if num_cars = 1 then [base]
          else create_separated_racing_lines wSep rSep rotated base track.width num_cars
        .ok ((List.range num_cars).map fun (i : ℕ) =>
          perCarEntry rotated racing_lines base raises modelId friction wSpeed rSpeed i
            (track.cars.getD i defaultCar))
      else .error wrongArityMsg

def getOk (e : Except String (List CarLine)) : List CarLine :=
  match e with
  | .ok res => res
  | .error _ => []

def getOkPts (e : Except String (List Point)) : List Point :=
  match e with
  | .ok res => res
  | .error _ => []

/-! ## Closure lemmas -/

theorem headD_append_left {l l2 : List Point} (h : l ≠ []) (d : Point) :
    (l ++ l2).headD d = l.headD d := by
  cases l with
  | nil => exact absurd rfl h
  | cons a t => rfl

theorem getLastD_append_right {l l2 : List Point} (h : l2 ≠ []) (d : Point) :
    (l ++ l2).getLastD d = l2.getLastD d := by
  rw [List.getLastD_eq_getLast?, List.getLastD_eq_getLast?,
    List.getLast?_append_of_ne_nil _ h]

/-- The function `closeLine` always yields a line whose first and last points are allclose:
either they already were, or the first point is appended at the end. -/
theorem closeLine_closed (line : List Point) :
    isCloseP ((closeLine line).headD (0, 0)) ((closeLine line).getLastD (0, 0)) := by
  unfold closeLine
  split_ifs with h
  · exact h
  · cases line with
    | nil => exact absurd (isCloseP_refl _) h
    | cons a t =>
      rw [headD_append_left (by simp), getLastD_append_right (by simp)]
      exact isCloseP_refl _

/-- The resampled track is closed exactly: the spline samples get their first
point appended at the end. -/
theorem resampleOk_head_eq_last (so : List Point) :
    (resampleOk so).headD (0, 0) = (resampleOk so).getLastD (0, 0) := by
  unfold resampleOk
  cases so with
  | nil => rfl
  | cons a t =>
    rw [headD_append_left (by simp), getLastD_append_right (by simp)]
    rfl

theorem idxOfMin_lt (l : List ℝ) (h : l ≠ []) : idxOfMin l < l.length := by
  unfold idxOfMin
  have h0 : 0 < l.length := List.length_pos.mpr h
  have key : ∀ (xs : List ℕ) (acc : ℕ), acc < l.length → (∀ x ∈ xs, x < l.length) →
      xs.foldl (fun best i => if l.getD i 0 < l.getD best 0 then i else best) acc
        < l.length := by
    intro xs
    induction xs with
    | nil => intro acc hacc _; exact hacc
    | cons x t ih =>
      intro acc hacc hmem
      rw [List.foldl_cons]
      refine ih _ ?_ fun y hy => hmem y (List.mem_cons_of_mem _ hy)
      split_ifs
      · exact hmem x (List.mem_cons_self _ _)
      · exact hacc
  exact key _ 0 h0 fun x hx => List.mem_range.1 hx

theorem headD_drop (l : List Point) (s : ℕ) :
    (l.drop s).headD (0, 0) = l.getD s (0, 0) := by
  rw [List.headD_eq_head?, List.head?_drop, List.getD_eq_getElem?_getD]

theorem getD_drop_pt (l : List Point) (n i : ℕ) (d : Point) :
    (l.drop n).getD i d = l.getD (n + i) d := by
  rw [List.getD_eq_getElem?_getD, List.getD_eq_getElem?_getD, List.getElem?_drop]

theorem getD_take_pt (l : List Point) (n i : ℕ) (h : i < n) (d : Point) :
    (l.take n).getD i d = l.getD i d := by
  rw [List.getD_eq_getElem?_getD, List.getD_eq_getElem?_getD, List.getElem?_take,
    if_pos h]

theorem getLastD_eq_getD (l : List Point) (d : Point) :
    l.getLastD d = l.getD (l.length - 1) d := by
  rw [List.getLastD_eq_getLast?, List.getLast?_eq_getElem?, List.getD_eq_getElem?_getD]

/-- The start-position rotation preserves exact closure: both the head and
the last point of the rotated list are the point at `start_idx`. -/
theorem rotateToStart_head_eq_last (trackPts resampled : List Point)
    (hclosed : resampled.headD (0, 0) = resampled.getLastD (0, 0)) :
    (rotateToStart trackPts resampled).headD (0, 0)
      = (rotateToStart trackPts resampled).getLastD (0, 0) := by
  unfold rotateToStart
  dsimp only
  split_ifs with hzero
  · have hres_ne : resampled ≠ [] := by
      intro hnil
      subst hnil
      exact hzero rfl
    have hs_lt : idxOfMin (resampled.map fun p => dist2 p (trackPts.headD (0, 0)))
        < resampled.length := by
      have := idxOfMin_lt (resampled.map fun p => dist2 p (trackPts.headD (0, 0)))
        (by simpa using hres_ne)
      simpa using this
    set s := idxOfMin (resampled.map fun p => dist2 p (trackPts.headD (0, 0)))
    have hs1 : 1 ≤ s := Nat.one_le_iff_ne_zero.mpr hzero
    have hdrop_ne : resampled.drop s ≠ [] := by
      rw [← List.length_pos, List.length_drop]
      omega
    have hX_ne : (resampled.take (s + 1)).drop 1 ≠ [] := by
      rw [← List.length_pos, List.length_drop, List.length_take]
      omega
    rw [headD_append_left hdrop_ne, headD_drop, getLastD_append_right hX_ne,
      getLastD_eq_getD]
    have hXlen : ((resampled.take (s + 1)).drop 1).length = s := by
      rw [List.length_drop, List.length_take]
      omega
    rw [hXlen, getD_drop_pt, getD_take_pt _ _ _ (by omega),
      show 1 + (s - 1) = s by omega]
  · exact hclosed

/-! ## C3 and C2: missing validation and the basic-model arity bug -/

/-- C3 (code-bug evidence).  For every input with fewer than 3 track points,
the engine does NOT reject the request with a validation error: no point-count
check exists anywhere on the path, the request enters geometry processing
(the closure check and spline fit of `resample_track_points`), and what comes
back is a propagated low-level exception — `IndexError` from
`track_points[0]` when the list is empty, otherwise the scipy spline-fit
error `m > k must hold` re-raised by the non-periodic fallback.  The HTTP
layer (`main.py` lines 190-194) turns this into a generic 500 server error,
not a client validation error. -/
theorem short_track_hits_spline_error
    (calcFn : List Point → List ℝ → ℝ → Option CarParams → ℝ → List Point)
    (splineOut : List Point) (wSpeed : List ℝ) (rSpeed : ℤ)
    (wSep : List ℝ) (rSep : ℤ) (raises : ℕ → Bool)
    (trackPts : List Point) (w f : ℝ) (cars : List Car) (modelId : RacingLineModel)
    (h : trackPts.length < 3) :
    optimize_racing_line calcFn splineOut wSpeed rSpeed wSep rSep raises
      { track_points := trackPts, width := w, friction := f, cars := cars } modelId
      = .error (if trackPts = [] then indexErrorMsg else splprepErrorMsg) := by
  unfold optimize_racing_line
  dsimp only
  by_cases hnil : trackPts = []
  · rw [if_pos hnil, if_pos hnil]
  · rw [if_neg hnil, if_neg hnil]
    have hres : resample_track_points splineOut trackPts (min 100 trackPts.length)
        = .error splprepErrorMsg := by
      unfold resample_track_points
      dsimp only
      split_ifs with h1 h2
      · rfl
      · exact absurd (by omega) h2
      · rfl
      · rw [List.length_append, List.length_cons, List.length_nil] at *
        omega
    rw [hres]

theorem short_track_hits_spline_error_witness :
    optimize_racing_line (fun _ _ _ _ _ => []) [] [1] 0 [1] 0 (fun _ => false)
      { track_points := [((0 : ℝ), (0 : ℝ)), ((1 : ℝ), (0 : ℝ))], width := 10,
        friction := 1, cars := [cexCar] } RacingLineModel.physics_based
      = .error (if ([((0 : ℝ), (0 : ℝ)), ((1 : ℝ), (0 : ℝ))] : List Point) = []
          then indexErrorMsg else splprepErrorMsg) :=
  short_track_hits_spline_error (fun _ _ _ _ _ => []) [] [1] 0 [1] 0 (fun _ => false)
    [((0 : ℝ), (0 : ℝ)), ((1 : ℝ), (0 : ℝ))] 10 1 [cexCar]
    RacingLineModel.physics_based (by norm_num)

/-- C2 (code-bug evidence).  The optimizer's call site passes 5 positional
arguments to the selected model's `calculate_racing_line`; the registered
basic model's method accepts only 3 (required 3, maximum 3), while the
physics model accepts up to 5.  Consequently invoking the engine with the
"basic" model identifier on a perfectly valid track (the closed 9-point
square, one vehicle) raises a wrong-arity `TypeError` that propagates out of
`optimize_racing_line` instead of returning a racing line per vehicle. -/
theorem basic_model_call_wrong_arity :
    acceptsCall (modelSig RacingLineModel.basic) optimizerCallArgCount = false ∧
    acceptsCall (modelSig RacingLineModel.physics_based) optimizerCallArgCount = true ∧
    optimize_racing_line (fun _ _ _ _ _ => []) sq9 [1] 0 [1] 0 (fun _ => false)
      { track_points := sq9, width := 10, friction := 1, cars := [cexCar] }
      RacingLineModel.basic
      = .error wrongArityMsg := by
  refine ⟨rfl, rfl, ?_⟩
  unfold optimize_racing_line
  dsimp only
  rw [if_neg (by unfold sq9; simp : ¬ (sq9 = []))]
  have hres : resample_track_points sq9 sq9 (min 100 sq9.length) = .ok (resampleOk sq9) := by
    unfold resample_track_points
    dsimp only
    have hcl : isCloseP (sq9.headD (0, 0)) (sq9.getLastD (0, 0)) := by
      rw [show sq9.headD (0, 0) = ((0 : ℝ), (0 : ℝ)) from rfl,
        show sq9.getLastD (0, 0) = ((0 : ℝ), (0 : ℝ)) from rfl]
      exact isCloseP_refl _
    rw [if_pos hcl]
    rw [if_neg (show ¬ (sq9.length ≤ 3) by
      rw [show sq9.length = 9 from rfl]; norm_num)]
  rw [hres]
  rfl

/-! ## C8: closure of every produced line -/

theorem getD_map_range {α : Type} (n : ℕ) (f : ℕ → α) (i : ℕ) (d : α) :
    ((List.range n).map f).getD i d = if i < n then f i else d := by
  split_ifs with h
  · rw [List.getD_eq_getElem _ _ (by simpa using h), List.getElem_map, List.getElem_range]
  · rw [List.getD_eq_default]
    simpa using h

theorem perCarEntry_coordinates (rotated : List Point) (lines : List (List Point))
    (base : List Point) (raises : ℕ → Bool) (modelId : RacingLineModel)
    (friction : ℝ) (wSpeed : List ℝ) (rSpeed : ℤ) (i : ℕ) (car : Car) :
    (perCarEntry rotated lines base raises modelId friction wSpeed rSpeed i car).coordinates
      = if raises i then rotated
        else closeLine (if i < lines.length then lines.getD i [] else base) := by
  unfold perCarEntry
  split_ifs <;> rfl

theorem resample_ok_eq {splineOut points : List Point} {m : ℕ} {v : List Point}
    (h : resample_track_points splineOut points m = .ok v) : v = resampleOk splineOut := by
  unfold resample_track_points at h
  dsimp only at h
  split_ifs at h with h1 h2 h3 <;> simp_all

/-- C8.  The resampled track returned by the geometry processor, and the
coordinates of every per-vehicle entry produced by the optimize operation
(single-vehicle, lane-separated and fallback lines alike), have their first
and last points equal within the `allclose` tolerance (`atol = 1e-3`): the
resampling appends the first sample at the end, the start-rotation preserves
exact closure, and every produced racing line passes through the re-closure
step `closeLine` (or is the closed resampled centerline itself on the
fallback path).  Out-of-range indices and error results yield the empty
default, closed trivially. -/
theorem resample_and_racing_lines_closed
    (calcFn : List Point → List ℝ → ℝ → Option CarParams → ℝ → List Point)
    (splineOut : List Point) (wSpeed : List ℝ) (rSpeed : ℤ)
    (wSep : List ℝ) (rSep : ℤ) (raises : ℕ → Bool) (track : Track)
    (modelId : RacingLineModel) (i : ℕ) :
    isCloseP ((getOkPts (resample_track_points splineOut track.track_points
        (min 100 track.track_points.length))).headD (0, 0))
      ((getOkPts (resample_track_points splineOut track.track_points
        (min 100 track.track_points.length))).getLastD (0, 0)) ∧
    isCloseP ((((getOk (optimize_racing_line calcFn splineOut wSpeed rSpeed wSep rSep
        raises track modelId)).getD i defaultCarLine).coordinates).headD (0, 0))
      ((((getOk (optimize_racing_line calcFn splineOut wSpeed rSpeed wSep rSep
        raises track modelId)).getD i defaultCarLine).coordinates).getLastD (0, 0)) := by
  constructor
  · cases hres : resample_track_points splineOut track.track_points
        (min 100 track.track_points.length) with
    | error e => exact isCloseP_refl _
    | ok v =>
      have hv := resample_ok_eq hres
      subst hv
      unfold getOkPts
      rw [← resampleOk_head_eq_last]
      exact isCloseP_refl _
  · unfold optimize_racing_line
    by_cases hnil : track.track_points = []
    · rw [if_pos hnil]
      exact isCloseP_refl _
    · rw [if_neg hnil]
      cases hres : resample_track_points splineOut track.track_points
          (min 100 track.track_points.length) with
      | error e => exact isCloseP_refl _
      | ok v =>
        have hv := resample_ok_eq hres
        subst hv
        dsimp only
        by_cases hacc : acceptsCall (modelSig modelId) optimizerCallArgCount = true
        · rw [if_pos hacc]
          unfold getOk
          rw [getD_map_range]
          by_cases hi : i < track.cars.length
          · rw [if_pos hi, perCarEntry_coordinates]
            by_cases hr : raises i = true
            · rw [if_pos hr, ← rotateToStart_head_eq_last track.track_points _
                (resampleOk_head_eq_last splineOut)]
              exact isCloseP_refl _
            · rw [if_neg hr]
              exact closeLine_closed _
          · rw [if_neg hi]
            exact isCloseP_refl _
        · rw [if_neg hacc]
          exact isCloseP_refl _

/-! ## C1 and C10: per-vehicle fallback and coordinate noninterference -/

/-- Under a sufficiently long track and an arity-compatible model, the
optimize operation succeeds and returns exactly one `perCarEntry` per
vehicle, in vehicle order. -/
theorem optimize_ok_reduce
    (calcFn : List Point → List ℝ → ℝ → Option CarParams → ℝ → List Point)
    (splineOut : List Point) (wSpeed : List ℝ) (rSpeed : ℤ)
    (wSep : List ℝ) (rSep : ℤ) (raises : ℕ → Bool) (track : Track)
    (modelId : RacingLineModel)
    (hpts : 4 ≤ track.track_points.length)
    (hmodel : acceptsCall (modelSig modelId) optimizerCallArgCount = true) :
    optimize_racing_line calcFn splineOut wSpeed rSpeed wSep rSep raises track modelId
      = .ok ((List.range track.cars.length).map fun (i : ℕ) =>
          perCarEntry (rotateToStart track.track_points (resampleOk splineOut))
            (if track.cars.length = 1 then
              [closeLine (calcFn (rotateToStart track.track_points (resampleOk splineOut))
                (compute_curvature (rotateToStart track.track_points (resampleOk splineOut)))
                track.width (track.cars.head?.map carParamsOf) track.friction)]
            else create_separated_racing_lines wSep rSep
              (rotateToStart track.track_points (resampleOk splineOut))
              (closeLine (calcFn (rotateToStart track.track_points (resampleOk splineOut))
                (compute_curvature (rotateToStart track.track_points (resampleOk splineOut)))
                track.width (track.cars.head?.map carParamsOf) track.friction))
              track.width track.cars.length)
            (closeLine (calcFn (rotateToStart track.track_points (resampleOk splineOut))
              (compute_curvature (rotateToStart track.track_points (resampleOk splineOut)))
              track.width (track.cars.head?.map carParamsOf) track.friction))
            raises modelId track.friction wSpeed rSpeed i
            (track.cars.getD i defaultCar)) := by
  have hne : track.track_points ≠ [] := by
    intro h
    rw [h] at hpts
    simp at hpts
  have hres : resample_track_points splineOut track.track_points
      (min 100 track.track_points.length) = .ok (resampleOk splineOut) := by
    unfold resample_track_points
    dsimp only
    split_ifs with h1 h2 h3
    · exact absurd hpts (by omega)
    · rfl
    · exfalso
      rw [List.length_append, List.length_cons, List.length_nil] at h3
      omega
    · rfl
  unfold optimize_racing_line
  rw [if_neg hne, hres]
  dsimp only
  rw [if_pos hmodel]

/-- C1.  For every track (with enough points to resample) and every
non-empty vehicle list, if an exception is raised during the per-vehicle
speed/offset computation for exactly one vehicle `j` (the `raises` oracle is
`i == j`), the optimize operation still returns one entry per vehicle, in
vehicle order; vehicle `j`'s entry falls back to the resampled centerline
coordinates with the constant 10.0 speed array and the estimated lap time
`0.1 * len`, and every other vehicle's entry is the same as in the run
without any failure. -/
theorem optimize_per_vehicle_fallback
    (calcFn : List Point → List ℝ → ℝ → Option CarParams → ℝ → List Point)
    (splineOut : List Point) (wSpeed : List ℝ) (rSpeed : ℤ)
    (wSep : List ℝ) (rSep : ℤ) (track : Track) (modelId : RacingLineModel) (j : ℕ)
    (hpts : 4 ≤ track.track_points.length)
    (hmodel : acceptsCall (modelSig modelId) optimizerCallArgCount = true)
    (hj : j < track.cars.length) :
    ((getOk (optimize_racing_line calcFn splineOut wSpeed rSpeed wSep rSep
        (fun i => i == j) track modelId)).length = track.cars.length) ∧
    (∀ i, i < track.cars.length →
      ((getOk (optimize_racing_line calcFn splineOut wSpeed rSpeed wSep rSep
          (fun i => i == j) track modelId)).getD i defaultCarLine).car_id
        = (track.cars.getD i defaultCar).id) ∧
    ((getOk (optimize_racing_line calcFn splineOut wSpeed rSpeed wSep rSep
        (fun i => i == j) track modelId)).getD j defaultCarLine
      = { car_id := (track.cars.getD j defaultCar).id,
          coordinates := rotateToStart track.track_points (resampleOk splineOut),
          speeds := List.replicate
            (rotateToStart track.track_points (resampleOk splineOut)).length 10.0,
          lap_time := ((rotateToStart track.track_points
            (resampleOk splineOut)).length : ℝ) * 0.1,
          model := modelId }) ∧
    (∀ i, i < track.cars.length → i ≠ j →
      (getOk (optimize_racing_line calcFn splineOut wSpeed rSpeed wSep rSep
          (fun i => i == j) track modelId)).getD i defaultCarLine
        = (getOk (optimize_racing_line calcFn splineOut wSpeed rSpeed wSep rSep
            (fun _ => false) track modelId)).getD i defaultCarLine) := by
  rw [optimize_ok_reduce calcFn splineOut wSpeed rSpeed wSep rSep
      (fun i => i == j) track modelId hpts hmodel,
    optimize_ok_reduce calcFn splineOut wSpeed rSpeed wSep rSep
      (fun _ => false) track modelId hpts hmodel]
  unfold getOk
  refine ⟨by simp, ?_, ?_, ?_⟩
  · intro i hi
    rw [getD_map_range, if_pos hi]
    unfold perCarEntry
    split_ifs <;> rfl
  · rw [getD_map_range, if_pos hj]
    unfold perCarEntry
    rw [if_pos (by simp : (j == j) = true)]
  · intro i hi hne
    rw [getD_map_range, getD_map_range, if_pos hi, if_pos hi]
    unfold perCarEntry
    rw [if_neg (by simp [hne] : ¬ ((i == j) = true)),
      if_neg (by simp : ¬ (false = true))]

/-- A second vehicle differing from `cexCar` only in identity and mass. -/
noncomputable def heavyCar : Car := { cexCar with id := "c2", mass := 900 }

/-- A third vehicle like `heavyCar` but heavier still. -/
noncomputable def heavierCar : Car := { cexCar with id := "c2", mass := 1200 }

noncomputable def c1Track : Track :=
  { track_points := sq9, width := 10, friction := 1, cars := [cexCar, heavyCar] }

noncomputable def c2Track : Track :=
  { track_points := sq9, width := 10, friction := 1, cars := [cexCar, heavierCar] }

theorem optimize_per_vehicle_fallback_witness :
    ((getOk (optimize_racing_line (fun _ _ _ _ _ => []) sq9 [1] 0 [1] 0
        (fun i => i == 0) c1Track RacingLineModel.physics_based)).length
      = c1Track.cars.length) ∧
    (∀ i, i < c1Track.cars.length →
      ((getOk (optimize_racing_line (fun _ _ _ _ _ => []) sq9 [1] 0 [1] 0
          (fun i => i == 0) c1Track RacingLineModel.physics_based)).getD i
          defaultCarLine).car_id
        = (c1Track.cars.getD i defaultCar).id) ∧
    ((getOk (optimize_racing_line (fun _ _ _ _ _ => []) sq9 [1] 0 [1] 0
        (fun i => i == 0) c1Track RacingLineModel.physics_based)).getD 0 defaultCarLine
      = { car_id := (c1Track.cars.getD 0 defaultCar).id,
          coordinates := rotateToStart c1Track.track_points (resampleOk sq9),
          speeds := List.replicate
            (rotateToStart c1Track.track_points (resampleOk sq9)).length 10.0,
          lap_time := ((rotateToStart c1Track.track_points
            (resampleOk sq9)).length : ℝ) * 0.1,
          model := RacingLineModel.physics_based }) ∧
    (∀ i, i < c1Track.cars.length → i ≠ 0 →
      (getOk (optimize_racing_line (fun _ _ _ _ _ => []) sq9 [1] 0 [1] 0
          (fun i => i == 0) c1Track RacingLineModel.physics_based)).getD i defaultCarLine
        = (getOk (optimize_racing_line (fun _ _ _ _ _ => []) sq9 [1] 0 [1] 0
            (fun _ => false) c1Track RacingLineModel.physics_based)).getD i
            defaultCarLine) :=
  optimize_per_vehicle_fallback (fun _ _ _ _ _ => []) sq9 [1] 0 [1] 0
    c1Track RacingLineModel.physics_based 0
    (by rw [show c1Track.track_points.length = 9 from rfl]; norm_num) rfl
    (by rw [show c1Track.cars.length = 2 from rfl]; norm_num)

/-- C10.  The coordinate arrays in the optimize result depend only on the
track geometry/width/friction, the model, the external numerical parameters,
the first vehicle's physical parameters (the `car_params` dict) and the
number of vehicles: two requests that differ only in the other vehicles'
physical parameters produce identical coordinates for every vehicle (speeds
and lap times may differ, since those are computed per vehicle). -/
theorem coordinates_independent_of_other_vehicle_params
    (calcFn : List Point → List ℝ → ℝ → Option CarParams → ℝ → List Point)
    (splineOut : List Point) (wSpeed : List ℝ) (rSpeed : ℤ)
    (wSep : List ℝ) (rSep : ℤ) (raises : ℕ → Bool) (t1 t2 : Track)
    (modelId : RacingLineModel)
    (hpts : t1.track_points = t2.track_points) (hw : t1.width = t2.width)
    (hf : t1.friction = t2.friction) (hlen : t1.cars.length = t2.cars.length)
    (_h2 : 2 ≤ t1.cars.length)
    (hhead : t1.cars.head?.map carParamsOf = t2.cars.head?.map carParamsOf) :
    (getOk (optimize_racing_line calcFn splineOut wSpeed rSpeed wSep rSep raises
        t1 modelId)).map (fun e => e.coordinates)
      = (getOk (optimize_racing_line calcFn splineOut wSpeed rSpeed wSep rSep raises
        t2 modelId)).map (fun e => e.coordinates) := by
  unfold optimize_racing_line
  rw [hpts, hw, hf, hlen, hhead]
  by_cases hnil : t2.track_points = []
  · rw [if_pos hnil, if_pos hnil]
  · rw [if_neg hnil, if_neg hnil]
    cases hres : resample_track_points splineOut t2.track_points
        (min 100 t2.track_points.length) with
    | error e => rfl
    | ok v =>
      dsimp only
      by_cases hacc : acceptsCall (modelSig modelId) optimizerCallArgCount = true
      · rw [if_pos hacc, if_pos hacc]
        unfold getOk
        rw [List.map_map, List.map_map]
        refine List.map_congr_left fun i hi => ?_
        simp only [Function.comp]
        simp only [perCarEntry_coordinates]
      · rw [if_neg hacc, if_neg hacc]

theorem coordinates_independent_witness :
    c1Track.track_points = c2Track.track_points ∧
    c1Track.cars.getD 1 defaultCar ≠ c2Track.cars.getD 1 defaultCar ∧
    (getOk (optimize_racing_line (fun _ _ _ _ _ => []) sq9 [1] 0 [1] 0
        (fun _ => false) c1Track RacingLineModel.physics_based)).map
        (fun e => e.coordinates)
      = (getOk (optimize_racing_line (fun _ _ _ _ _ => []) sq9 [1] 0 [1] 0
        (fun _ => false) c2Track RacingLineModel.physics_based)).map
        (fun e => e.coordinates) := by
  refine ⟨rfl, ?_, ?_⟩
  · intro h
    have hm := congrArg Car.mass h
    rw [show (c1Track.cars.getD 1 defaultCar).mass = 900 from rfl,
      show (c2Track.cars.getD 1 defaultCar).mass = 1200 from rfl] at hm
    norm_num at hm
  · exact coordinates_independent_of_other_vehicle_params (fun _ _ _ _ _ => [])
      sq9 [1] 0 [1] 0 (fun _ => false) c1Track c2Track RacingLineModel.physics_based
      rfl rfl rfl rfl
      (by rw [show c1Track.cars.length = 2 from rfl]) rfl

end RaceLine
